import Mathlib

/-
  Verification development for the Deal or No Deal multiplayer game server.

  Shallow embedding of:
  - `backend/src/game/constants.ts` (ladder, round plan, name sanitisation)
  - `backend/src/game/points.ts` (calculatePoints)
  - `backend/src/game/banker.ts` (getBankerOffer)
  - the socket/game-engine handlers (open-box, deal-response, offer timeout,
    last-standing finalisation, banker-offer generation, state projection).

  Monetary values are rationals (the ladder contains 0.01).  JS `Math.random()`
  is threaded through as an explicit rational parameter `rand` in `[0, 1)`;
  `Date.now()` as an explicit `now : Nat`.
-/

namespace DoND

/-- Monetary amounts, modelled as rationals. -/
abbrev Money := ℚ

/-- The 20-value UK box ladder, from `BOX_VALUES` in `game/constants.ts`. -/
def BOX_VALUES : List Money :=
  [1/100, 1, 5, 10, 50, 100, 250, 500, 750, 1000, 3000, 5000, 10000,
   15000, 20000, 35000, 50000, 75000, 100000, 250000]

/-- Round configuration `ROUNDS` (round number, boxes to open). -/
def ROUNDS : List (Nat × Nat) := [(1, 5), (2, 4), (3, 3), (4, 2)]

/-- Embedding of `getBoxesToOpenForRound`: look the round up in `ROUNDS`,
defaulting to 1 box per round from round 5 on. -/
def getBoxesToOpenForRound (round : Nat) : Nat :=
  match ROUNDS.find? (fun r => r.1 == round) with
  | some r => r.2
  | none => 1

/-- `OFFER_TIMEOUT_MS` (20 seconds). -/
def OFFER_TIMEOUT_MS : Nat := 20000

/-- `BOX_OPEN_TIMEOUT_MS` (20 seconds). -/
def BOX_OPEN_TIMEOUT_MS : Nat := 20000

/-- `MAX_NAME_LENGTH`. -/
def MAX_NAME_LENGTH : Nat := 16

/-- The banned-word list from `game/constants.ts`, as character lists. -/
def BANNED_WORDS : List (List Char) :=
  ["fuck", "shit", "bitch", "cunt", "dick", "ass",
   "bastard", "wanker", "twat", "bollocks", "prick",
   "nigger", "faggot", "retard"].map String.toList

/-- Lower-casing of a character list (JS `toLowerCase` on the ASCII range). -/
def toLowerChars (l : List Char) : List Char := l.map Char.toLower

/-- Embedding of `containsProfanity`: some banned word occurs as a substring
of the lower-cased name (JS `String.prototype.includes`). -/
def containsProfanity (name : List Char) : Bool :=
  BANNED_WORDS.any (fun w => decide (w <:+: toLowerChars name))

/-- The characters matched by the sanitiser's regex `[aeiouAEIOU]`. -/
def isVowelChar (c : Char) : Bool :=
  c == 'a' || c == 'e' || c == 'i' || c == 'o' || c == 'u' ||
  c == 'A' || c == 'E' || c == 'I' || c == 'O' || c == 'U'

/-- JS `String.prototype.trim`: strip whitespace from both ends. -/
def trimChars (l : List Char) : List Char :=
  ((l.dropWhile Char.isWhitespace).reverse.dropWhile Char.isWhitespace).reverse

/-- The sanitiser's vowel replacement `replace(/[aeiouAEIOU]/g, '*')`. -/
def starVowels (l : List Char) : List Char :=
  l.map (fun c => if isVowelChar c then '*' else c)

/-- Embedding of `sanitiseName`: trim, truncate to 16 characters, and if the
result contains a banned word, star out every vowel. -/
def sanitiseName (name : List Char) : List Char :=
  if containsProfanity ((trimChars name).take MAX_NAME_LENGTH) then
    starVowels ((trimChars name).take MAX_NAME_LENGTH)
  else
    (trimChars name).take MAX_NAME_LENGTH

/-- Parameters of `calculatePoints` (`game/points.ts`). -/
structure CalculatePointsParams where
  finalWinnings : Money
  finalBoxValue : Money
  roundDealt : Nat
  isLastStanding : Bool
  isHighestWinnings : Bool
  timeoutCount : Nat
deriving DecidableEq

/-- Embedding of `calculatePoints`: sequential accumulation of base points,
bonuses and penalties, floored at zero, exactly as in `game/points.ts`. -/
def calculatePoints (p : CalculatePointsParams) : Int :=
  let points1 : Int := min ⌊p.finalWinnings / 100⌋ 3000
  let points2 := points1 + (if p.finalWinnings > p.finalBoxValue then 200 else 0)
  let points3 := points2 + (if 4 ≤ p.roundDealt then 150 else 0)
  let points4 := points3 - (if p.roundDealt ≤ 2 then 50 else 0)
  let points5 := points4 + (if p.isLastStanding then 200 else 0)
  let points6 := points5 + (if p.isHighestWinnings then 200 else 0)
  let points7 := points6 - 50 * (p.timeoutCount : Int)
  max points7 0

/-- The round modifier table of `getBankerOffer` (`game/banker.ts`). -/
def roundModifiers : List ℚ := [7/10, 8/10, 9/10, 95/100, 1, 105/100]

/-- Embedding of `getBankerOffer`.  `rand` stands for the `Math.random()`
draw, a rational in `[0, 1)`; the JS `randomFactor` is `0.9 + rand * 0.2`.
`Math.round` is `⌊x + 1/2⌋` on rationals.  Defined for `round ≥ 1`
(the subtraction `round - 1` is the truncated `Nat` one). -/
def getBankerOffer (remainingValues : List Money) (round : Nat) (rand : ℚ) : Money :=
  if remainingValues.length = 0 then 0
  else
    let avg := (remainingValues.foldl (· + ·) 0) / (remainingValues.length : ℚ)
    let baseModifier := roundModifiers.getD (min (round - 1) (roundModifiers.length - 1)) 0
    let randomFactor := 9/10 + rand * (2/10)
    let offer := avg * baseModifier * randomFactor
    ((⌊offer / 10 + 1/2⌋ : ℤ) : ℚ) * 10

/-- Mean of a list of rationals, as the claim words it. -/
def listMean (l : List ℚ) : ℚ := l.sum / (l.length : ℚ)

/-- Rounding to the nearest multiple of 10 (JS `Math.round(x/10)*10`). -/
def roundToNearestTen (x : ℚ) : ℚ := ((⌊x / 10 + 1/2⌋ : ℤ) : ℚ) * 10

/-- Player roles (`'player' | 'spectator'` in `store/types.ts`). -/
inductive Role where
  | player
  | spectator
deriving DecidableEq

/-- Game phases. -/
inductive Phase where
  | waiting
  | selection
  | playing
  | offer
  | finished
deriving DecidableEq

/-- A box, as held in `gameState.boxes`. -/
structure Box where
  number : Nat
  value : Money
  isOpened : Bool
  openedByPlayerId : Option String
deriving DecidableEq

/-- A player record, as held in the room's player map. -/
structure Player where
  id : String
  name : String
  isHost : Bool
  isReady : Bool
  isConnected : Bool
  role : Role
  boxNumber : Option Nat
  hasDealt : Bool
  dealAmount : Option Money
  boxValue : Option Money
  roundDealt : Option Nat
  isLastStanding : Bool
  timeoutCount : Nat
  points : Int
deriving DecidableEq

/-- The authoritative per-room game state.  The JS `Map` of players is an
insertion-ordered association of unique ids, embedded as a list; the JS
object `offerResponses` is an association list from player id to response. -/
structure GameState where
  phase : Phase
  hostId : String
  players : List Player
  boxes : List Box
  currentRound : Nat
  boxesOpenedThisRound : List Nat
  remainingValues : List Money
  eliminatedValues : List Money
  currentOffer : Option Money
  offerExpiresAt : Option Nat
  offerEligiblePlayerIds : List String
  offerResponses : List (String × Bool)
  turnOrder : List String
  currentTurnIndex : Nat
  currentTurnPlayerId : Option String
  turnExpiresAt : Option Nat
  startedAt : Option Nat
  finishedAt : Option Nat
deriving DecidableEq

/-- Lookup of a player by id (`players.get(playerId)`). -/
def getPlayer (s : GameState) (pid : String) : Option Player :=
  s.players.find? (fun p => p.id == pid)

/-- Point update of the (unique-keyed) player map at `pid`
(`updatePlayer` / mutation of the map entry). -/
def updatePlayerIn (ps : List Player) (pid : String) (f : Player → Player) : List Player :=
  ps.map (fun p => if p.id == pid then f p else p)

/-- Lookup of a box by box number (`boxes.find(b => b.number === n)`). -/
def findBox (bs : List Box) (n : Nat) : Option Box :=
  bs.find? (fun b => b.number == n)

/-- Mutation of the box object found by `boxes.find(b => b.number === n)`:
mark the first box with that number opened and record the opener. -/
def openBoxIn (bs : List Box) (n : Nat) (pid : String) : List Box :=
  match bs with
  | [] => []
  | b :: rest =>
    if b.number == n then
      { b with isOpened := true, openedByPlayerId := some pid } :: rest
    else
      b :: openBoxIn rest n pid

/-- The `indexOf`/`splice`/`push` idiom moving an opened box's value from
`remainingValues` to `eliminatedValues`; a no-op when the value is absent. -/
def moveValue (v : Money) (rem elim : List Money) : List Money × List Money :=
  if v ∈ rem then (rem.erase v, elim ++ [v]) else (rem, elim)

/-- The box-reveal block shared by `finishLastPlayer`: find the player's
personal box by number, open it recording the opener, and move its value
from `remainingValues` to `eliminatedValues` (without an `isOpened`
guard, as in the source). -/
def revealBox (s : GameState) (pid : String) (bn : Option Nat) : GameState :=
  match bn with
  | none => s
  | some n =>
    match findBox s.boxes n with
    | none => s
    | some box =>
      let mv := moveValue box.value s.remainingValues s.eliminatedValues
      { s with boxes := openBoxIn s.boxes n pid,
               remainingValues := mv.1, eliminatedValues := mv.2 }

/-- The box-reveal block of the `deal-response` handler: same as
`revealBox` but guarded by `!box.isOpened`. -/
def openPersonalBox (s : GameState) (pid : String) (bn : Option Nat) : GameState :=
  match bn with
  | none => s
  | some n =>
    match findBox s.boxes n with
    | none => s
    | some box =>
      if box.isOpened then s
      else
        let mv := moveValue box.value s.remainingValues s.eliminatedValues
        { s with boxes := openBoxIn s.boxes n pid,
                 remainingValues := mv.1, eliminatedValues := mv.2 }

/-- Whether a player is an active contestant (`role === 'player' &&
boxNumber !== null && !hasDealt`). -/
def isActiveContestant (p : Player) : Bool :=
  p.role == Role.player && p.boxNumber.isSome && !p.hasDealt

/-- The filter used by `checkGameEnd` / `getLastActivePlayer` /
`triggerBankerOffer`. -/
def activePlayers (s : GameState) : List Player :=
  s.players.filter isActiveContestant

/-- Embedding of `checkGameEnd`: all active players have dealt. -/
def checkGameEnd (s : GameState) : Bool :=
  (activePlayers s).length == 0

/-- Embedding of `getLastActivePlayer`. -/
def getLastActivePlayer (s : GameState) : Option Player :=
  if (activePlayers s).length == 1 then (activePlayers s).head? else none

/-- Embedding of `hasOpenableBoxes`: some box is unopened and is not any
contestant's reserved personal box. -/
def hasOpenableBoxes (s : GameState) : Bool :=
  s.boxes.any (fun b =>
    !b.isOpened &&
    !(s.players.any (fun p => p.role == Role.player && p.boxNumber == some b.number)))

/-- Embedding of `getNextActivePlayerIndex`: scan `turnOrder` cyclically
from `startIndex` for the first not-yet-dealt contestant. -/
def getNextActivePlayerIndex (s : GameState) (startIndex : Nat) : Option Nat :=
  if s.turnOrder.length == 0 then none
  else
    ((List.range s.turnOrder.length).find? (fun i =>
      let idx := (startIndex + i) % s.turnOrder.length
      match s.turnOrder[idx]? with
      | none => false
      | some pid =>
        match getPlayer s pid with
        | none => false
        | some p => !p.hasDealt && p.role == Role.player)).map
      (fun i => (startIndex + i) % s.turnOrder.length)

/-- Lookup in the `offerResponses` object. -/
def lookupResp (rs : List (String × Bool)) (pid : String) : Option Bool :=
  (rs.find? (fun e => e.1 == pid)).map (fun e => e.2)

/-- The `deal-response` handler's `allResponded` check: every eligible
player has a recorded response. -/
def allResponded (s : GameState) : Bool :=
  s.offerEligiblePlayerIds.all (fun q => (lookupResp s.offerResponses q).isSome)

/-- JS `x || d` on an optional round number (0 and null both fall back). -/
def jsOrNat (x : Option Nat) (d : Nat) : Nat :=
  match x with
  | some v => if v == 0 then d else v
  | none => d

/-- JS `Math.max(...l)` for a possibly-empty list, defaulting to 0 as in
`finishGame`. -/
def maxAmount (l : List Money) : Money :=
  match l with
  | [] => 0
  | a :: rest => rest.foldl max a

/-- Embedding of `finishGame`: compute final points for every contestant
with a box, transition to `finished` and clear timer/offer sub-state.
(The leaderboard broadcast and global-leaderboard upsert are I/O.) -/
def finishGame (s : GameState) (now : Nat) : GameState :=
  let contestants := s.players.filter (fun p => p.role == Role.player && p.boxNumber.isSome)
  let finalAmounts := contestants.map (fun p => p.dealAmount.getD 0)
  let highestWinnings := maxAmount finalAmounts
  let newPlayers := s.players.map (fun p =>
    if p.role == Role.player && p.boxNumber.isSome then
      { p with points := calculatePoints ⟨p.dealAmount.getD 0, p.boxValue.getD 0,
          jsOrNat p.roundDealt s.currentRound, p.isLastStanding,
          p.dealAmount.getD 0 == highestWinnings, p.timeoutCount⟩ }
    else p)
  { s with players := newPlayers,
           phase := Phase.finished,
           finishedAt := some now,
           currentOffer := none,
           offerExpiresAt := none,
           currentTurnPlayerId := none,
           turnExpiresAt := none,
           offerEligiblePlayerIds := [],
           offerResponses := [] }

/-- Embedding of `finishLastPlayer`: the last undealt contestant wins their
own box value; their box is revealed (opener = themselves) and its value
moved to `eliminatedValues`; then the game is finalised. -/
def finishLastPlayer (s : GameState) (p : Player) (now : Nat) : GameState :=
  let s1 := { s with players := updatePlayerIn s.players p.id (fun q =>
    { q with hasDealt := true, dealAmount := p.boxValue,
             roundDealt := some s.currentRound, isLastStanding := true }) }
  finishGame (revealBox s1 p.id p.boxNumber) now

/-- Embedding of `triggerBankerOffer`: settle a lone last contestant or an
all-dealt game; otherwise compute the offer, snapshot the eligible set and
enter the offer phase. -/
def triggerBankerOffer (s : GameState) (now : Nat) (rand : ℚ) : GameState :=
  match getLastActivePlayer s with
  | some p => finishLastPlayer s p now
  | none =>
    if checkGameEnd s then finishGame s now
    else
      let offer := getBankerOffer s.remainingValues s.currentRound rand
      let eligible := (activePlayers s).map (fun p => p.id)
      { s with phase := Phase.offer,
               currentOffer := some offer,
               offerExpiresAt := some (now + OFFER_TIMEOUT_MS),
               offerEligiblePlayerIds := eligible,
               offerResponses := [],
               currentTurnPlayerId := none,
               turnExpiresAt := none }

/-- Embedding of `setCurrentTurn`: route to an offer when no openable box
remains, otherwise arm the next active player's turn. -/
def setCurrentTurn (s : GameState) (now : Nat) (rand : ℚ) : GameState :=
  if s.phase ≠ Phase.playing then s
  else if !hasOpenableBoxes s then triggerBankerOffer s now rand
  else
    match getNextActivePlayerIndex s s.currentTurnIndex with
    | none => s
    | some idx =>
      match s.turnOrder[idx]? with
      | none => s
      | some pid =>
        { s with currentTurnIndex := idx,
                 currentTurnPlayerId := some pid,
                 turnExpiresAt := some (now + BOX_OPEN_TIMEOUT_MS) }

/-- Embedding of `startNewRound`: settle a lone last contestant, otherwise
advance the round, clear per-round sub-state and arm the first turn. -/
def startNewRound (s : GameState) (now : Nat) (rand : ℚ) : GameState :=
  match getLastActivePlayer s with
  | some p => finishLastPlayer s p now
  | none =>
    let s1 := { s with currentRound := s.currentRound + 1,
                       boxesOpenedThisRound := [],
                       phase := Phase.playing,
                       currentOffer := none,
                       offerExpiresAt := none,
                       offerEligiblePlayerIds := [],
                       offerResponses := [],
                       currentTurnPlayerId := none,
                       turnExpiresAt := none }
    setCurrentTurn s1 now rand

/-- Embedding of `endOfferAndContinue`. -/
def endOfferAndContinue (s : GameState) (now : Nat) (rand : ℚ) : GameState :=
  if checkGameEnd s then finishGame s now
  else
    match getLastActivePlayer s with
    | some p => finishLastPlayer s p now
    | none => startNewRound s now rand

/-- The `timeoutCount += 1` mutation. -/
def bumpTimeout (p : Player) : Player :=
  { p with timeoutCount := p.timeoutCount + 1 }

/-- One iteration of the `handleOfferTimeout` marking loop: default a single
eligible player to No Deal and charge a timeout, unless they responded. -/
def markOne (s : GameState) (pid : String) : GameState :=
  if (lookupResp s.offerResponses pid).isSome then s
  else
    { s with offerResponses := s.offerResponses ++ [(pid, false)],
             players := updatePlayerIn s.players pid bumpTimeout }

/-- The marking loop of `handleOfferTimeout` over the eligible set. -/
def markOfferTimeouts (s : GameState) : GameState :=
  s.offerEligiblePlayerIds.foldl markOne s

/-- Embedding of `handleOfferTimeout`: a no-op outside the offer phase;
otherwise mark non-responders and continue via `endOfferAndContinue`. -/
def handleOfferTimeout (s : GameState) (now : Nat) (rand : ℚ) : GameState :=
  if s.phase ≠ Phase.offer then s
  else endOfferAndContinue (markOfferTimeouts s) now rand

/-- The acceptance branch of the `deal-response` handler (after the response
is recorded): settle the deal for `player` (the record looked up before the
mutation), open their personal box, and fix up `turnOrder` bookkeeping. -/
def dealSettle (s : GameState) (pid : String) (player : Player) : GameState :=
  let pts := calculatePoints
    ⟨s.currentOffer.getD 0, player.boxValue.getD 0, s.currentRound,
     false, false, player.timeoutCount⟩
  let s1 := { s with players := updatePlayerIn s.players pid (fun q =>
    { q with hasDealt := true, dealAmount := s.currentOffer,
             roundDealt := some s.currentRound, isLastStanding := false,
             points := pts }) }
  let s2 := openPersonalBox s1 pid player.boxNumber
  let i := s2.turnOrder.indexOf pid
  if i < s2.turnOrder.length then
    { s2 with turnOrder := s2.turnOrder.eraseIdx i,
              currentTurnIndex :=
                if i < s2.currentTurnIndex then s2.currentTurnIndex - 1
                else s2.currentTurnIndex }
  else s2

/-- Embedding of the `deal-response` socket handler. -/
def dealResponseHandler (s : GameState) (pid : String) (accepted : Bool)
    (now : Nat) (rand : ℚ) : GameState :=
  if s.phase ≠ Phase.offer then s
  else
    match getPlayer s pid with
    | none => s
    | some player =>
      if player.hasDealt then s
      else if player.role ≠ Role.player then s
      else if (lookupResp s.offerResponses pid).isSome then s
      else if pid ∉ s.offerEligiblePlayerIds then s
      else
        let s1 := { s with offerResponses := s.offerResponses ++ [(pid, accepted)] }
        let s2 := if accepted && s.currentOffer.isSome then dealSettle s1 pid player else s1
        if allResponded s2 then endOfferAndContinue s2 now rand else s2

/-- Embedding of the `open-box` socket handler (the scheduled
`triggerBankerOffer` 1.5 s after a completed round is a separate, later
event and not part of this synchronous transition). -/
def openBoxHandler (s : GameState) (pid : String) (n : Nat)
    (now : Nat) (rand : ℚ) : GameState :=
  if s.phase ≠ Phase.playing then s
  else if s.currentTurnPlayerId ≠ some pid then s
  else
    match getPlayer s pid with
    | none => s
    | some player =>
      if player.hasDealt then s
      else if player.role ≠ Role.player then s
      else if getBoxesToOpenForRound s.currentRound ≤ s.boxesOpenedThisRound.length then s
      else
        match findBox s.boxes n with
        | none => s
        | some box =>
          if box.isOpened then s
          else if s.players.any (fun p => p.boxNumber == some n) then s
          else
            let mv := moveValue box.value s.remainingValues s.eliminatedValues
            let s1 := { s with boxes := openBoxIn s.boxes n pid,
                               remainingValues := mv.1, eliminatedValues := mv.2,
                               boxesOpenedThisRound := s.boxesOpenedThisRound ++ [n] }
            let roundComplete :=
              getBoxesToOpenForRound s.currentRound ≤ s1.boxesOpenedThisRound.length
                || !hasOpenableBoxes s1
            if roundComplete then
              let nextStartIdx := getNextActivePlayerIndex s1 (s1.currentTurnIndex + 1)
              { s1 with currentTurnIndex := nextStartIdx.getD s1.currentTurnIndex,
                        currentTurnPlayerId := none,
                        turnExpiresAt := none }
            else
              match getNextActivePlayerIndex s1 (s1.currentTurnIndex + 1) with
              | none => s1
              | some idx => setCurrentTurn { s1 with currentTurnIndex := idx } now rand

/-- Public projection of one player (`PlayerPublicInfo`). -/
structure PlayerPublicInfo where
  id : String
  name : String
  isHost : Bool
  isReady : Bool
  role : Role
  boxNumber : Option Nat
  hasDealt : Bool
  dealAmount : Option Money
  isActive : Bool
  isConnected : Bool
deriving DecidableEq

/-- Public projection of one box (`BoxPublicInfo`). -/
structure BoxPublicInfo where
  number : Nat
  isOpened : Bool
  value : Option Money
  isPlayerBox : Bool
  ownerId : Option String
deriving DecidableEq

/-- The personalised snapshot (`GameStateUpdate`). -/
structure GameStateUpdate where
  phase : Phase
  players : List PlayerPublicInfo
  boxes : List BoxPublicInfo
  currentRound : Nat
  boxesToOpenThisRound : Nat
  boxesOpenedThisRound : List Nat
  remainingValues : List Money
  eliminatedValues : List Money
  currentOffer : Option Money
  offerExpiresAt : Option Nat
  currentTurnPlayerId : Option String
  turnExpiresAt : Option Nat
  recentlyOpenedBox : Option (Nat × Money)
deriving DecidableEq

/-- Embedding of `createGameStateUpdate`: the per-recipient projection that
hides the values of unopened boxes. -/
def createGameStateUpdate (s : GameState) (forPlayerId : String)
    (recentlyOpenedBox : Option (Nat × Money)) : GameStateUpdate :=
  let currentPlayer := getPlayer s forPlayerId
  { phase := s.phase,
    players := s.players.map (fun p =>
      { id := p.id, name := p.name, isHost := p.isHost, isReady := p.isReady,
        role := p.role, boxNumber := p.boxNumber, hasDealt := p.hasDealt,
        dealAmount := p.dealAmount,
        isActive := !p.hasDealt && p.boxNumber.isSome && p.role == Role.player,
        isConnected := p.isConnected }),
    boxes := s.boxes.map (fun box =>
      { number := box.number,
        isOpened := box.isOpened,
        value := if box.isOpened then some box.value else none,
        isPlayerBox :=
          match currentPlayer with
          | some p => p.boxNumber == some box.number
          | none => false,
        ownerId := (s.players.find? (fun p => p.boxNumber == some box.number)).map
          (fun p => p.id) }),
    currentRound := s.currentRound,
    boxesToOpenThisRound := getBoxesToOpenForRound s.currentRound,
    boxesOpenedThisRound := s.boxesOpenedThisRound,
    remainingValues := s.remainingValues,
    eliminatedValues := s.eliminatedValues,
    currentOffer := s.currentOffer,
    offerExpiresAt := s.offerExpiresAt,
    currentTurnPlayerId := s.currentTurnPlayerId,
    turnExpiresAt := s.turnExpiresAt,
    recentlyOpenedBox := recentlyOpenedBox }

/-! Concrete fixtures used by witness theorems. -/

/-- A ready contestant holding box `bn` whose hidden value is `v`. -/
def mkContestant (i : String) (bn : Nat) (v : Money) : Player :=
  { id := i, name := i, isHost := false, isReady := true, isConnected := true,
    role := Role.player, boxNumber := some bn, hasDealt := false,
    dealAmount := none, boxValue := some v, roundDealt := none,
    isLastStanding := false, timeoutCount := 0, points := 0 }

/-- An unopened box. -/
def mkBox (n : Nat) (v : Money) : Box :=
  { number := n, value := v, isOpened := false, openedByPlayerId := none }

/-- A box already opened by `pid`. -/
def mkOpenBox (n : Nat) (v : Money) (pid : String) : Box :=
  { number := n, value := v, isOpened := true, openedByPlayerId := some pid }

/-- A playing-phase fixture in which round 1's quota of 5 boxes is met. -/
def wsQuota : GameState :=
  { phase := Phase.playing, hostId := "A",
    players := [mkContestant "A" 1 1, mkContestant "B" 2 5],
    boxes := [mkBox 1 1, mkBox 2 5, mkBox 8 1000,
              mkOpenBox 3 10 "A", mkOpenBox 4 100 "B", mkOpenBox 5 250 "A",
              mkOpenBox 6 500 "B", mkOpenBox 7 750 "A"],
    currentRound := 1, boxesOpenedThisRound := [3, 4, 5, 6, 7],
    remainingValues := [1, 5, 1000],
    eliminatedValues := [10, 100, 250, 500, 750],
    currentOffer := none, offerExpiresAt := none,
    offerEligiblePlayerIds := [], offerResponses := [],
    turnOrder := ["A", "B"], currentTurnIndex := 0,
    currentTurnPlayerId := some "A", turnExpiresAt := some 20000,
    startedAt := some 0, finishedAt := none }

/-! ## Claim theorems -/

/-- C2: the scoring function equals
`max(0, min(floor(w/100), 3000) + smart-deal + guts − early-exit +
last-standing + highest − 50·timeouts)` and is always nonnegative
(and, being a function, deterministic). -/
theorem calculatePoints_spec (p : CalculatePointsParams) :
    calculatePoints p =
      max 0 (min ⌊p.finalWinnings / 100⌋ 3000
        + (if p.finalWinnings > p.finalBoxValue then 200 else 0)
        + (if 4 ≤ p.roundDealt then 150 else 0)
        - (if p.roundDealt ≤ 2 then 50 else 0)
        + (if p.isLastStanding then 200 else 0)
        + (if p.isHighestWinnings then 200 else 0)
        - 50 * (p.timeoutCount : Int))
      ∧ 0 ≤ calculatePoints p := by
  refine ⟨?_, le_max_right _ _⟩
  simp only [calculatePoints]
  exact max_comm _ _

/-- C3: for a nonempty remaining list and round ≥ 1 the offer is the mean
of the remaining values times the round modifier `[0.70 … 1.05][min(r−1,5)]`
times a factor `f ∈ [0.90, 1.10]`, rounded to the nearest 10; for the empty
list the offer is 0. -/
theorem getBankerOffer_spec (rem : List Money) (round : Nat) (rand : ℚ)
    (hr : 1 ≤ round) (h0 : 0 ≤ rand) (h1 : rand < 1) :
    (rem = [] → getBankerOffer rem round rand = 0) ∧
    (rem ≠ [] → ∃ f : ℚ, 9/10 ≤ f ∧ f ≤ 11/10 ∧
      getBankerOffer rem round rand =
        roundToNearestTen (listMean rem * roundModifiers.getD (min (round - 1) 5) 0 * f)) := by
  constructor
  · intro he
    subst he
    rfl
  · intro hne
    refine ⟨9/10 + rand * (2/10), by linarith, by linarith, ?_⟩
    unfold getBankerOffer
    rw [if_neg (by simpa using hne)]
    unfold roundToNearestTen listMean
    rw [List.sum_eq_foldl]
    norm_num [roundModifiers]

/-- Witness for C3 at `rem = [1, 5, 10, 100]`, `round = 1`, `rand = 0`. -/
theorem getBankerOffer_spec_witness :
    ((1 : Nat) ≤ 1 ∧ (0 : ℚ) ≤ 0 ∧ (0 : ℚ) < 1) ∧
    ((([1, 5, 10, 100] : List Money) = [] → getBankerOffer [1, 5, 10, 100] 1 0 = 0) ∧
     (([1, 5, 10, 100] : List Money) ≠ [] → ∃ f : ℚ, 9/10 ≤ f ∧ f ≤ 11/10 ∧
       getBankerOffer [1, 5, 10, 100] 1 0 =
         roundToNearestTen (listMean [1, 5, 10, 100] * roundModifiers.getD (min (1 - 1) 5) 0 * f))) :=
  ⟨⟨le_refl 1, le_refl 0, by norm_num⟩,
   getBankerOffer_spec [1, 5, 10, 100] 1 0 (le_refl 1) (le_refl 0) (by norm_num)⟩

/-- The star character is not a vowel. -/
theorem isVowelChar_star : isVowelChar '*' = false := by decide

/-- Starring is idempotent: a starred name has no vowels left to star. -/
theorem starVowels_starVowels (l : List Char) :
    starVowels (starVowels l) = starVowels l := by
  induction l with
  | nil => rfl
  | cons c cs ih =>
    simp only [starVowels, List.map_cons] at ih ⊢
    rw [ih]
    cases h : isVowelChar c <;> simp [h, isVowelChar_star]

/-- The sanitised name never exceeds 16 characters. -/
theorem sanitiseName_length (x : List Char) :
    (sanitiseName x).length ≤ MAX_NAME_LENGTH := by
  unfold sanitiseName
  split
  · simp only [starVowels, List.length_map, List.length_take]
    exact min_le_left _ _
  · simp only [List.length_take]
    exact min_le_left _ _

/-- C9 counterexample: sanitisation is not idempotent on
`"bbbbbbbbbbbbbbb Z"` (15 b's, a space, `Z`): the first pass truncates to
16 characters ending in a space, and the second pass trims that space. -/
theorem sanitiseName_not_idempotent :
    sanitiseName (sanitiseName ("bbbbbbbbbbbbbbb Z".toList)) ≠
      sanitiseName ("bbbbbbbbbbbbbbb Z".toList) := by
  decide

/-- A name that the sanitiser's trim-and-truncate leaves unchanged, and
that starring fixes whenever it is profane, is a fixed point. -/
theorem sanitiseName_fixed (z : List Char)
    (h1 : (trimChars z).take MAX_NAME_LENGTH = z)
    (h2 : containsProfanity z = true → starVowels z = z) :
    sanitiseName z = z := by
  unfold sanitiseName
  rw [h1]
  split
  · exact h2 ‹_›
  · rfl

/-- C9 amended: sanitisation is idempotent on every input whose sanitised
form is already trimmed (no leading or trailing whitespace); truncation to
16 characters can leave a trailing space that the second pass then trims. -/
theorem sanitiseName_idem_of_trimmed (x : List Char)
    (h : trimChars (sanitiseName x) = sanitiseName x) :
    sanitiseName (sanitiseName x) = sanitiseName x := by
  have hlen := sanitiseName_length x
  have htake : (trimChars (sanitiseName x)).take MAX_NAME_LENGTH = sanitiseName x := by
    rw [h]
    exact List.take_of_length_le hlen
  apply sanitiseName_fixed _ htake
  intro hprof
  by_cases hp : containsProfanity ((trimChars x).take MAX_NAME_LENGTH) = true
  · have hy : sanitiseName x = starVowels ((trimChars x).take MAX_NAME_LENGTH) := by
      unfold sanitiseName
      rw [if_pos hp]
    rw [hy, starVowels_starVowels]
  · have hy : sanitiseName x = (trimChars x).take MAX_NAME_LENGTH := by
      unfold sanitiseName
      rw [if_neg hp]
    rw [hy] at hprof
    exact absurd hprof hp

/-- Witness for the amended C9 at the input `"Alice"`. -/
theorem sanitiseName_idem_of_trimmed_witness :
    trimChars (sanitiseName ("Alice".toList)) = sanitiseName ("Alice".toList) ∧
    sanitiseName (sanitiseName ("Alice".toList)) = sanitiseName ("Alice".toList) :=
  ⟨by decide, sanitiseName_idem_of_trimmed _ (by decide)⟩

/-- C10: once the round quota `RoundPlan[currentRound]` is reached, an
`open-box` event in the playing phase leaves the entire room state
unchanged, whoever sends it and whichever box it names. -/
theorem openBox_quota_noop (s : GameState) (pid : String) (n : Nat)
    (now : Nat) (rand : ℚ) (hphase : s.phase = Phase.playing)
    (hq : getBoxesToOpenForRound s.currentRound ≤ s.boxesOpenedThisRound.length) :
    openBoxHandler s pid n now rand = s := by
  unfold openBoxHandler
  simp only [if_pos hq]
  repeat' split
  all_goals rfl

/-- Witness for C10: with 5 boxes already opened in round 1, the current
player's attempt to open the valid, unowned, unopened box 8 is ignored. -/
theorem openBox_quota_noop_witness :
    (wsQuota.phase = Phase.playing ∧
     getBoxesToOpenForRound wsQuota.currentRound ≤ wsQuota.boxesOpenedThisRound.length) ∧
    openBoxHandler wsQuota "A" 8 0 0 = wsQuota :=
  ⟨⟨rfl, by decide⟩, openBox_quota_noop wsQuota "A" 8 0 0 rfl (by decide)⟩

/-- C6: the personalised snapshot pairs each box with a projection that
shows `value = none` exactly when the box is unopened (hidden values never
leak), shows the true value when opened, and flags `isPlayerBox` exactly
when the box number equals the recipient's own box number. -/
theorem snapshot_boxes_spec (s : GameState) (fid : String)
    (ro : Option (Nat × Money)) (rp : Player) (h : getPlayer s fid = some rp) :
    List.Forall₂ (fun (pb : BoxPublicInfo) (box : Box) =>
        pb.number = box.number ∧
        pb.value = (if box.isOpened then some box.value else none) ∧
        (pb.isPlayerBox = true ↔ rp.boxNumber = some box.number))
      (createGameStateUpdate s fid ro).boxes s.boxes := by
  simp only [createGameStateUpdate, h]
  rw [List.forall₂_map_left_iff, List.forall₂_same]
  intro box hbox
  refine ⟨rfl, rfl, ?_⟩
  simp

/-- Witness for C6 on the `wsQuota` fixture for recipient `"A"`. -/
theorem snapshot_boxes_spec_witness :
    getPlayer wsQuota "A" = some (mkContestant "A" 1 1) ∧
    List.Forall₂ (fun (pb : BoxPublicInfo) (box : Box) =>
        pb.number = box.number ∧
        pb.value = (if box.isOpened then some box.value else none) ∧
        (pb.isPlayerBox = true ↔ (mkContestant "A" 1 1).boxNumber = some box.number))
      (createGameStateUpdate wsQuota "A" none).boxes wsQuota.boxes :=
  ⟨by decide, snapshot_boxes_spec wsQuota "A" none (mkContestant "A" 1 1) (by decide)⟩

/-- C7: the eligible set snapshot taken when a banker offer is generated is
exactly the contestants with a box who have not dealt; and a deal-response
from an ineligible sender, or a repeated response, leaves the state
unchanged. -/
theorem offer_eligibility_spec (s : GameState) (pid : String) (accepted : Bool)
    (now : Nat) (rand : ℚ)
    (hlast : getLastActivePlayer s = none) (hend : checkGameEnd s = false)
    (hpid : pid ∉ s.offerEligiblePlayerIds ∨
            (lookupResp s.offerResponses pid).isSome = true) :
    (∀ q : String,
      q ∈ (triggerBankerOffer s now rand).offerEligiblePlayerIds ↔
        ∃ p, p ∈ s.players ∧ p.id = q ∧ p.role = Role.player ∧
          p.boxNumber.isSome = true ∧ p.hasDealt = false) ∧
    dealResponseHandler s pid accepted now rand = s := by
  constructor
  · intro q
    unfold triggerBankerOffer
    rw [hlast, hend]
    simp only [Bool.false_eq_true, if_false, activePlayers, isActiveContestant,
      List.mem_map, List.mem_filter]
    constructor
    · rintro ⟨p, ⟨hp, hcond⟩, hid⟩
      simp only [Bool.and_eq_true, beq_iff_eq, Bool.not_eq_true'] at hcond
      exact ⟨p, hp, hid, hcond.1.1, hcond.1.2, hcond.2⟩
    · rintro ⟨p, hp, hid, hrole, hbox, hdealt⟩
      refine ⟨p, ⟨hp, ?_⟩, hid⟩
      simp only [Bool.and_eq_true, beq_iff_eq, Bool.not_eq_true']
      exact ⟨⟨hrole, hbox⟩, hdealt⟩
  · unfold dealResponseHandler
    rcases hpid with hni | hresp
    · simp only [if_pos hni]
      repeat' split
      all_goals rfl
    · simp only [if_pos hresp]
      repeat' split
      all_goals rfl

/-- An offer-phase fixture: three undealt contestants, offer £100 out,
contestant C has already rejected. -/
def wsOffer : GameState :=
  { phase := Phase.offer, hostId := "A",
    players := [mkContestant "A" 1 1, mkContestant "B" 2 5, mkContestant "C" 3 10],
    boxes := [mkBox 1 1, mkBox 2 5, mkBox 3 10, mkBox 4 100],
    currentRound := 1, boxesOpenedThisRound := [],
    remainingValues := [1, 5, 10, 100], eliminatedValues := [],
    currentOffer := some 100, offerExpiresAt := some 20000,
    offerEligiblePlayerIds := ["A", "B", "C"], offerResponses := [("C", false)],
    turnOrder := ["A", "B", "C"], currentTurnIndex := 1,
    currentTurnPlayerId := none, turnExpiresAt := none,
    startedAt := some 0, finishedAt := none }

/-- Witness for C7 on `wsOffer` with the ineligible sender `"X"`. -/
theorem offer_eligibility_spec_witness :
    (getLastActivePlayer wsOffer = none ∧ checkGameEnd wsOffer = false ∧
     ("X" ∉ wsOffer.offerEligiblePlayerIds ∨
      (lookupResp wsOffer.offerResponses "X").isSome = true)) ∧
    ((∀ q : String,
        q ∈ (triggerBankerOffer wsOffer 0 0).offerEligiblePlayerIds ↔
          ∃ p, p ∈ wsOffer.players ∧ p.id = q ∧ p.role = Role.player ∧
            p.boxNumber.isSome = true ∧ p.hasDealt = false) ∧
     dealResponseHandler wsOffer "X" true 0 0 = wsOffer) :=
  ⟨⟨by decide, by decide, Or.inl (by decide)⟩,
   offer_eligibility_spec wsOffer "X" true 0 0 (by decide) (by decide)
     (Or.inl (by decide))⟩

/-- The contestants of `s` carrying a given player id, in order. -/
def playersWithId (s : GameState) (q : String) : List Player :=
  s.players.filter (fun p => p.id == q)

/-- Appending a response entry does not disturb an existing entry's lookup. -/
theorem lookupResp_append_of_isSome (rs : List (String × Bool)) (e : String × Bool)
    (q : String) (h : (lookupResp rs q).isSome = true) :
    lookupResp (rs ++ [e]) q = lookupResp rs q := by
  induction rs with
  | nil => simp [lookupResp] at h
  | cons a rest ih =>
    by_cases ha : a.1 == q
    · simp [lookupResp, List.find?, ha]
    · simp only [lookupResp, List.cons_append, List.find?, ha] at h ⊢
      exact ih h

/-- Appending a response entry to a list that misses `q` yields that entry's
response exactly when the entry is keyed by `q`. -/
theorem lookupResp_append_of_none (rs : List (String × Bool)) (e : String × Bool)
    (q : String) (h : lookupResp rs q = none) :
    lookupResp (rs ++ [e]) q = if e.1 == q then some e.2 else none := by
  induction rs with
  | nil => simp only [List.nil_append, lookupResp, List.find?]
           split <;> simp_all
  | cons a rest ih =>
    by_cases ha : a.1 == q
    · simp [lookupResp, List.find?, ha] at h
    · simp only [lookupResp, List.cons_append, List.find?, ha] at h ⊢
      exact ih h

/-- Updating the player keyed `pid` does not disturb the players keyed by a
different id. -/
theorem filter_updatePlayerIn_ne (ps : List Player) (pid q : String)
    (f : Player → Player) (hf : ∀ p, (f p).id = p.id) (h : pid ≠ q) :
    (updatePlayerIn ps pid f).filter (fun p => p.id == q) =
      ps.filter (fun p => p.id == q) := by
  induction ps with
  | nil => rfl
  | cons p rest ih =>
    simp only [updatePlayerIn, List.map_cons, List.filter_cons] at ih ⊢
    by_cases hp : p.id = pid
    · have h0 : (p.id == pid) = true := by simp [hp]
      have h1 : ((f p).id == q) = false := by
        simp only [beq_eq_false_iff_ne, hf p, hp]
        exact h
      have h2 : (p.id == q) = false := by
        simp only [beq_eq_false_iff_ne, hp]
        exact h
      simp only [h0, if_true, h1, h2, Bool.false_eq_true, if_false]
      exact ih
    · have h3 : (p.id == pid) = false := by simp [hp]
      simp only [h3, Bool.false_eq_true, if_false]
      by_cases hpq : p.id = q
      · have h4 : (p.id == q) = true := by simp [hpq]
        simp only [h4, if_true]
        rw [ih]
      · have h4 : (p.id == q) = false := by simp [hpq]
        simp only [h4, Bool.false_eq_true, if_false]
        exact ih

/-- Updating the player keyed `pid` rewrites exactly the players keyed
`pid`, in place. -/
theorem filter_updatePlayerIn_eq (ps : List Player) (pid : String)
    (f : Player → Player) (hf : ∀ p, (f p).id = p.id) :
    (updatePlayerIn ps pid f).filter (fun p => p.id == pid) =
      (ps.filter (fun p => p.id == pid)).map f := by
  induction ps with
  | nil => rfl
  | cons p rest ih =>
    simp only [updatePlayerIn, List.map_cons, List.filter_cons] at ih ⊢
    by_cases hp : p.id = pid
    · have h0 : (p.id == pid) = true := by simp [hp]
      have h1 : ((f p).id == pid) = true := by simp [hf p, hp]
      simp only [h0, if_true, h1, List.map_cons]
      rw [ih]
    · have h3 : (p.id == pid) = false := by simp [hp]
      simp only [h3, Bool.false_eq_true, if_false]
      exact ih

/-- A single marking step never disturbs a player with a recorded
response. -/
theorem markOne_responded (s : GameState) (pid q : String) (b : Bool)
    (h : lookupResp s.offerResponses q = some b) :
    lookupResp (markOne s pid).offerResponses q = some b ∧
    playersWithId (markOne s pid) q = playersWithId s q := by
  unfold markOne
  by_cases hpid : (lookupResp s.offerResponses pid).isSome = true
  · rw [if_pos hpid]
    exact ⟨h, rfl⟩
  · rw [if_neg hpid]
    have hne : pid ≠ q := by
      intro hc
      rw [hc, h] at hpid
      simp at hpid
    constructor
    · show lookupResp (s.offerResponses ++ [(pid, false)]) q = some b
      rw [lookupResp_append_of_isSome _ _ _ (by simp [h])]
      exact h
    · exact filter_updatePlayerIn_ne s.players pid q bumpTimeout (fun p => rfl) hne

/-- A single marking step for `q` itself records No Deal and bumps `q`'s
timeout count. -/
theorem markOne_marks (s : GameState) (q : String)
    (h : lookupResp s.offerResponses q = none) :
    lookupResp (markOne s q).offerResponses q = some false ∧
    playersWithId (markOne s q) q = (playersWithId s q).map bumpTimeout := by
  unfold markOne
  rw [if_neg (by simp [h])]
  constructor
  · show lookupResp (s.offerResponses ++ [(q, false)]) q = some false
    rw [lookupResp_append_of_none _ _ _ h]
    simp
  · exact filter_updatePlayerIn_eq s.players q bumpTimeout (fun p => rfl)

/-- A single marking step for another player leaves `q` unrecorded and
untouched. -/
theorem markOne_nomark (s : GameState) (pid q : String) (hne : pid ≠ q)
    (h : lookupResp s.offerResponses q = none) :
    lookupResp (markOne s pid).offerResponses q = none ∧
    playersWithId (markOne s pid) q = playersWithId s q := by
  unfold markOne
  by_cases hpid : (lookupResp s.offerResponses pid).isSome = true
  · rw [if_pos hpid]
    exact ⟨h, rfl⟩
  · rw [if_neg hpid]
    constructor
    · show lookupResp (s.offerResponses ++ [(pid, false)]) q = none
      rw [lookupResp_append_of_none _ _ _ h]
      simp only [ite_eq_right_iff]
      intro hc
      exact absurd (beq_iff_eq.mp hc) hne
    · exact filter_updatePlayerIn_ne s.players pid q bumpTimeout (fun p => rfl) hne

/-- A recorded response survives the whole marking loop, and that player's
records are untouched. -/
theorem markFoldl_responded : ∀ (l : List String) (s : GameState) (q : String) (b : Bool),
    lookupResp s.offerResponses q = some b →
    lookupResp (l.foldl markOne s).offerResponses q = some b ∧
    playersWithId (l.foldl markOne s) q = playersWithId s q := by
  intro l
  induction l with
  | nil => exact fun s q b h => ⟨h, rfl⟩
  | cons pid rest ih =>
    intro s q b h
    simp only [List.foldl_cons]
    have step := markOne_responded s pid q b h
    have tail := ih (markOne s pid) q b step.1
    exact ⟨tail.1, tail.2.trans step.2⟩

/-- An eligible player with no recorded response is marked No Deal by the
loop, and every record with their id gets `timeoutCount` bumped exactly
once. -/
theorem markFoldl_marked : ∀ (l : List String) (s : GameState) (q : String),
    q ∈ l → lookupResp s.offerResponses q = none →
    lookupResp (l.foldl markOne s).offerResponses q = some false ∧
    playersWithId (l.foldl markOne s) q = (playersWithId s q).map bumpTimeout := by
  intro l
  induction l with
  | nil => intro s q hq h; cases hq
  | cons pid rest ih =>
    intro s q hq h
    simp only [List.foldl_cons]
    by_cases hpq : pid = q
    · subst hpq
      have step := markOne_marks s pid h
      have tail := markFoldl_responded rest (markOne s pid) pid false step.1
      exact ⟨tail.1, tail.2.trans step.2⟩
    · have hqrest : q ∈ rest := by
        cases hq with
        | head => exact absurd rfl hpq
        | tail _ hmem => exact hmem
      have step := markOne_nomark s pid q hpq h
      have tail := ih (markOne s pid) q hqrest step.1
      exact ⟨tail.1, tail.2.trans (by rw [step.2])⟩

/-- Opening a box by number transforms exactly the box that a lookup by
that number finds. -/
theorem findBox_openBoxIn (bs : List Box) (n : Nat) (pid : String) :
    findBox (openBoxIn bs n pid) n =
      (findBox bs n).map (fun b =>
        { b with isOpened := true, openedByPlayerId := some pid }) := by
  induction bs with
  | nil => rfl
  | cons b rest ih =>
    by_cases hb : b.number == n
    · simp [openBoxIn, findBox, List.find?, hb]
    · simp only [openBoxIn, findBox, List.find?] at ih ⊢
      rw [if_neg (by simp_all)]
      simp only [List.find?]
      cases hbb : (b.number == n) with
      | true => exact absurd hbb (by simp_all)
      | false => exact ih

/-- A member of the updated player map that carries the updated id comes
from updating some original member. -/
theorem mem_updatePlayerIn_of_id (ps : List Player) (pid : String)
    (f : Player → Player) (p : Player) (hp : p ∈ updatePlayerIn ps pid f)
    (hid : p.id = pid) (hf : ∀ q, (f q).id = q.id) :
    ∃ q, q ∈ ps ∧ p = f q := by
  obtain ⟨q, hq, heq⟩ := List.mem_map.mp hp
  by_cases hcond : q.id == pid
  · rw [if_pos hcond] at heq
    exact ⟨q, hq, heq.symm⟩
  · rw [if_neg hcond] at heq
    subst heq
    exact absurd (by simp [hid]) hcond

/-- A response-completeness check fails as long as one eligible player is
unrecorded. -/
theorem all_lookup_false (elig : List String) (resp : List (String × Bool))
    (r : String) (hrel : r ∈ elig) (hrnone : lookupResp resp r = none) :
    (elig.all fun q => (lookupResp resp q).isSome) = false := by
  apply Bool.eq_false_iff.mpr
  intro hall
  have := List.all_eq_true.mp hall r hrel
  rw [hrnone] at this
  simp at this

/-- Full evaluation of an accepted deal (guards satisfied, offer still open
for someone else): the handler performs exactly the settlement mutations of
the source, with `currentTurnIndex` decremented only when the player's
prior position is strictly below it. -/
theorem dealAccept_eval (s : GameState) (pid : String) (now : Nat) (rand : ℚ)
    (player : Player) (c : Money) (n : Nat) (box : Box)
    (hph : s.phase = Phase.offer)
    (hgp : getPlayer s pid = some player)
    (hnd : player.hasDealt = false)
    (hrole : player.role = Role.player)
    (hnr : lookupResp s.offerResponses pid = none)
    (hel : pid ∈ s.offerEligiblePlayerIds)
    (hoff : s.currentOffer = some c)
    (hbn : player.boxNumber = some n)
    (hfb : findBox s.boxes n = some box)
    (hbo : box.isOpened = false)
    (hbv : box.value ∈ s.remainingValues)
    (hto : pid ∈ s.turnOrder)
    (hq : ∃ r, r ∈ s.offerEligiblePlayerIds ∧ r ≠ pid ∧
      lookupResp s.offerResponses r = none) :
    dealResponseHandler s pid true now rand =
      { s with
        players := updatePlayerIn s.players pid (fun qp =>
          { qp with hasDealt := true,
                    dealAmount := some c,
                    roundDealt := some s.currentRound,
                    isLastStanding := false,
                    points := calculatePoints ⟨c, player.boxValue.getD 0, s.currentRound,
                      false, false, player.timeoutCount⟩ }),
        boxes := openBoxIn s.boxes n pid,
        remainingValues := s.remainingValues.erase box.value,
        eliminatedValues := s.eliminatedValues ++ [box.value],
        offerResponses := s.offerResponses ++ [(pid, true)],
        turnOrder := s.turnOrder.eraseIdx (s.turnOrder.indexOf pid),
        currentTurnIndex := if s.turnOrder.indexOf pid < s.currentTurnIndex then
          s.currentTurnIndex - 1 else s.currentTurnIndex } := by
  obtain ⟨r, hrel, hrne, hrnone⟩ := hq
  have hresp2 : lookupResp (s.offerResponses ++ [(pid, true)]) r = none := by
    rw [lookupResp_append_of_none _ _ _ hrnone]
    simp only [ite_eq_right_iff]
    intro hc
    exact absurd (beq_iff_eq.mp hc).symm hrne
  unfold dealResponseHandler
  rw [if_neg (not_ne_iff.mpr hph)]
  simp only [hgp]
  rw [if_neg (by simp [hnd])]
  rw [if_neg (not_ne_iff.mpr hrole)]
  rw [if_neg (by simp [hnr])]
  rw [if_neg (by simp [hel])]
  simp only [hoff, Option.isSome_some, Bool.and_self, if_true]
  unfold dealSettle openPersonalBox
  simp only [hbn, hoff, Option.getD_some]
  rw [show findBox s.boxes n = some box from hfb]
  simp only [hbo, Bool.false_eq_true, if_false, moveValue, if_pos hbv]
  rw [if_pos (List.indexOf_lt_length.mpr hto)]
  rw [if_neg (by simp only [allResponded]; rw [all_lookup_false _ _ r hrel hresp2]; simp)]

/-- C4 counterexample: on `wsOffer`, contestant B accepts from turn-order
position 1 with `currentTurnIndex = 1` (prior position `≤` index).  The
deal is settled and B leaves `turnOrder`, but `currentTurnIndex` stays 1
instead of being decremented to 0 as the claim's `≤` condition requires:
the code decrements only for strictly smaller prior positions. -/
theorem dealAccept_claim_counterexample :
    wsOffer.turnOrder.indexOf "B" ≤ wsOffer.currentTurnIndex ∧
    (dealResponseHandler wsOffer "B" true 0 0).turnOrder =
      wsOffer.turnOrder.eraseIdx (wsOffer.turnOrder.indexOf "B") ∧
    (dealResponseHandler wsOffer "B" true 0 0).currentTurnIndex ≠
      wsOffer.currentTurnIndex - 1 := by
  decide

/-- C4 amended: when an eligible contestant accepts the current offer (and
someone else is still to respond), the engine marks them dealt at the
offer amount and the current round, opens their personal box with
themselves as opener, moves its value from `remainingValues` to
`eliminatedValues`, removes them from `turnOrder`, and decrements
`currentTurnIndex` exactly when their prior position was strictly less
than it (clamping at 0). -/
theorem dealAccept_spec (s : GameState) (pid : String) (now : Nat) (rand : ℚ)
    (player : Player) (c : Money) (n : Nat) (box : Box)
    (hph : s.phase = Phase.offer)
    (hgp : getPlayer s pid = some player)
    (hnd : player.hasDealt = false)
    (hrole : player.role = Role.player)
    (hnr : lookupResp s.offerResponses pid = none)
    (hel : pid ∈ s.offerEligiblePlayerIds)
    (hoff : s.currentOffer = some c)
    (hbn : player.boxNumber = some n)
    (hfb : findBox s.boxes n = some box)
    (hbo : box.isOpened = false)
    (hbv : box.value ∈ s.remainingValues)
    (hto : pid ∈ s.turnOrder)
    (hq : ∃ r, r ∈ s.offerEligiblePlayerIds ∧ r ≠ pid ∧
      lookupResp s.offerResponses r = none) :
    (∀ p, p ∈ (dealResponseHandler s pid true now rand).players → p.id = pid →
      p.hasDealt = true ∧ p.dealAmount = some c ∧ p.roundDealt = some s.currentRound) ∧
    findBox (dealResponseHandler s pid true now rand).boxes n =
      some { box with isOpened := true, openedByPlayerId := some pid } ∧
    (dealResponseHandler s pid true now rand).remainingValues =
      s.remainingValues.erase box.value ∧
    (dealResponseHandler s pid true now rand).eliminatedValues =
      s.eliminatedValues ++ [box.value] ∧
    (dealResponseHandler s pid true now rand).turnOrder =
      s.turnOrder.eraseIdx (s.turnOrder.indexOf pid) ∧
    (dealResponseHandler s pid true now rand).currentTurnIndex =
      (if s.turnOrder.indexOf pid < s.currentTurnIndex then s.currentTurnIndex - 1
       else s.currentTurnIndex) := by
  rw [dealAccept_eval s pid now rand player c n box hph hgp hnd hrole hnr hel hoff
    hbn hfb hbo hbv hto hq]
  refine ⟨?_, ?_, rfl, rfl, rfl, rfl⟩
  · intro p hp hid
    obtain ⟨q, hqmem, hpe⟩ := mem_updatePlayerIn_of_id s.players pid _ p hp hid
      (fun q => rfl)
    rw [hpe]
    exact ⟨rfl, rfl, rfl⟩
  · rw [findBox_openBoxIn]
    rw [show findBox s.boxes n = some box from hfb]
    rfl

/-- Witness for the amended C4: contestant B accepts the £100 offer on the
`wsOffer` fixture. -/
theorem dealAccept_spec_witness :
    (wsOffer.phase = Phase.offer ∧
     getPlayer wsOffer "B" = some (mkContestant "B" 2 5) ∧
     (mkContestant "B" 2 5).hasDealt = false ∧
     (mkContestant "B" 2 5).role = Role.player ∧
     lookupResp wsOffer.offerResponses "B" = none ∧
     "B" ∈ wsOffer.offerEligiblePlayerIds ∧
     wsOffer.currentOffer = some 100 ∧
     (mkContestant "B" 2 5).boxNumber = some 2 ∧
     findBox wsOffer.boxes 2 = some (mkBox 2 5) ∧
     (mkBox 2 5).isOpened = false ∧
     (mkBox 2 5).value ∈ wsOffer.remainingValues ∧
     "B" ∈ wsOffer.turnOrder ∧
     (∃ r, r ∈ wsOffer.offerEligiblePlayerIds ∧ r ≠ "B" ∧
       lookupResp wsOffer.offerResponses r = none)) ∧
    ((∀ p, p ∈ (dealResponseHandler wsOffer "B" true 0 0).players → p.id = "B" →
      p.hasDealt = true ∧ p.dealAmount = some 100 ∧
      p.roundDealt = some wsOffer.currentRound) ∧
    findBox (dealResponseHandler wsOffer "B" true 0 0).boxes 2 =
      some { mkBox 2 5 with isOpened := true, openedByPlayerId := some "B" } ∧
    (dealResponseHandler wsOffer "B" true 0 0).remainingValues =
      wsOffer.remainingValues.erase (mkBox 2 5).value ∧
    (dealResponseHandler wsOffer "B" true 0 0).eliminatedValues =
      wsOffer.eliminatedValues ++ [(mkBox 2 5).value] ∧
    (dealResponseHandler wsOffer "B" true 0 0).turnOrder =
      wsOffer.turnOrder.eraseIdx (wsOffer.turnOrder.indexOf "B") ∧
    (dealResponseHandler wsOffer "B" true 0 0).currentTurnIndex =
      (if wsOffer.turnOrder.indexOf "B" < wsOffer.currentTurnIndex then
        wsOffer.currentTurnIndex - 1 else wsOffer.currentTurnIndex)) :=
  ⟨⟨rfl, by decide, rfl, rfl, by decide, by decide, rfl, rfl, by decide, rfl,
    by decide, by decide, ⟨"A", by decide, by decide, by decide⟩⟩,
   dealAccept_spec wsOffer "B" 0 0 (mkContestant "B" 2 5) 100 2 (mkBox 2 5)
     rfl (by decide) rfl rfl (by decide) (by decide) rfl rfl (by decide) rfl
     (by decide) (by decide) ⟨"A", by decide, by decide, by decide⟩⟩

/-- Evaluation of `finishLastPlayer` once the personal box is found. -/
theorem finishLastPlayer_eval (s : GameState) (p : Player) (now : Nat)
    (n : Nat) (box : Box)
    (hbn : p.boxNumber = some n) (hfb : findBox s.boxes n = some box) :
    finishLastPlayer s p now =
      finishGame
        { s with
          players := updatePlayerIn s.players p.id (fun q =>
            { q with hasDealt := true, dealAmount := p.boxValue,
                     roundDealt := some s.currentRound, isLastStanding := true }),
          boxes := openBoxIn s.boxes n p.id,
          remainingValues :=
            (moveValue box.value s.remainingValues s.eliminatedValues).1,
          eliminatedValues :=
            (moveValue box.value s.remainingValues s.eliminatedValues).2 } now := by
  unfold finishLastPlayer
  dsimp only
  rw [hbn]
  unfold revealBox
  dsimp only
  rw [show findBox s.boxes n = some box from hfb]

/-- Finalisation only rewrites each contestant's points: identity and all
settlement fields survive it. -/
theorem mem_finishGame_players (s : GameState) (now : Nat) (q : Player)
    (hq : q ∈ (finishGame s now).players) :
    ∃ x, x ∈ s.players ∧ q.id = x.id ∧ q.hasDealt = x.hasDealt ∧
      q.dealAmount = x.dealAmount ∧ q.isLastStanding = x.isLastStanding ∧
      q.roundDealt = x.roundDealt := by
  obtain ⟨x, hx, heq⟩ := List.mem_map.mp hq
  refine ⟨x, hx, ?_⟩
  rw [← heq]
  by_cases hc : (x.role == Role.player && x.boxNumber.isSome) = true
  · rw [if_pos hc]
    exact ⟨rfl, rfl, rfl, rfl, rfl⟩
  · rw [if_neg hc]
    exact ⟨rfl, rfl, rfl, rfl, rfl⟩

/-- A lone undealt contestant forces `checkGameEnd` to be false. -/
theorem checkGameEnd_of_last (s : GameState) (p : Player)
    (hlast : getLastActivePlayer s = some p) : checkGameEnd s = false := by
  unfold getLastActivePlayer at hlast
  unfold checkGameEnd
  by_cases h1 : ((activePlayers s).length == 1) = true
  · have h2 : (activePlayers s).length = 1 := beq_iff_eq.mp h1
    simp [h2]
  · rw [if_neg h1] at hlast
    cases hlast

/-- Evaluation of offer resolution when exactly one contestant remains
undealt. -/
theorem lastStanding_eval (s : GameState) (now : Nat) (rand : ℚ) (p : Player)
    (n : Nat) (box : Box)
    (hlast : getLastActivePlayer s = some p)
    (hbn : p.boxNumber = some n)
    (hfb : findBox s.boxes n = some box) :
    endOfferAndContinue s now rand =
      finishGame
        { s with
          players := updatePlayerIn s.players p.id (fun q =>
            { q with hasDealt := true, dealAmount := p.boxValue,
                     roundDealt := some s.currentRound, isLastStanding := true }),
          boxes := openBoxIn s.boxes n p.id,
          remainingValues :=
            (moveValue box.value s.remainingValues s.eliminatedValues).1,
          eliminatedValues :=
            (moveValue box.value s.remainingValues s.eliminatedValues).2 } now := by
  have hend := checkGameEnd_of_last s p hlast
  unfold endOfferAndContinue
  rw [if_neg (by simp [hend])]
  simp only [hlast]
  exact finishLastPlayer_eval s p now n box hbn hfb

/-- C5: when the offer resolves with exactly one contestant still undealt,
that contestant's personal box is revealed with themselves as opener, they
are settled at their own box value with `isLastStanding = true` and
`roundDealt = currentRound`, and the game ends in the finished phase. -/
theorem lastStanding_spec (s : GameState) (now : Nat) (rand : ℚ) (p : Player)
    (n : Nat) (box : Box)
    (hlast : getLastActivePlayer s = some p)
    (hbn : p.boxNumber = some n)
    (hfb : findBox s.boxes n = some box) :
    (endOfferAndContinue s now rand).phase = Phase.finished ∧
    (∀ q, q ∈ (endOfferAndContinue s now rand).players → q.id = p.id →
      q.hasDealt = true ∧ q.dealAmount = p.boxValue ∧ q.isLastStanding = true ∧
      q.roundDealt = some s.currentRound) ∧
    findBox (endOfferAndContinue s now rand).boxes n =
      some { box with isOpened := true, openedByPlayerId := some p.id } := by
  rw [lastStanding_eval s now rand p n box hlast hbn hfb]
  refine ⟨rfl, ?_, ?_⟩
  · intro q hq hid
    obtain ⟨x, hx, hid2, h1, h2, h3, h4⟩ := mem_finishGame_players _ now q hq
    obtain ⟨x0, hx0, hxe⟩ := mem_updatePlayerIn_of_id _ p.id _ x hx
      (by rw [← hid2, hid]) (fun q => rfl)
    rw [h1, h2, h3, h4, hxe]
    exact ⟨rfl, rfl, rfl, rfl⟩
  · show findBox (openBoxIn s.boxes n p.id) n =
      some { box with isOpened := true, openedByPlayerId := some p.id }
    rw [findBox_openBoxIn, hfb]
    rfl

/-- An offer-phase fixture in which only contestant B is still undealt. -/
def wsLast : GameState :=
  { phase := Phase.offer, hostId := "A",
    players := [{ mkContestant "A" 1 1 with
                  hasDealt := true,
                  dealAmount := some 50, roundDealt := some 1 },
                mkContestant "B" 2 5],
    boxes := [mkOpenBox 1 1 "A", mkBox 2 5, mkOpenBox 3 10 "A", mkBox 4 100],
    currentRound := 1, boxesOpenedThisRound := [3],
    remainingValues := [5, 100], eliminatedValues := [1, 10],
    currentOffer := some 50, offerExpiresAt := some 20000,
    offerEligiblePlayerIds := ["B"], offerResponses := [("B", false)],
    turnOrder := ["A", "B"], currentTurnIndex := 0,
    currentTurnPlayerId := none, turnExpiresAt := none,
    startedAt := some 0, finishedAt := none }

/-- Witness for C5 on `wsLast`: the offer resolves with B as the lone
undealt contestant. -/
theorem lastStanding_spec_witness :
    (getLastActivePlayer wsLast = some (mkContestant "B" 2 5) ∧
     (mkContestant "B" 2 5).boxNumber = some 2 ∧
     findBox wsLast.boxes 2 = some (mkBox 2 5)) ∧
    ((endOfferAndContinue wsLast 0 0).phase = Phase.finished ∧
     (∀ q, q ∈ (endOfferAndContinue wsLast 0 0).players →
       q.id = (mkContestant "B" 2 5).id →
       q.hasDealt = true ∧ q.dealAmount = (mkContestant "B" 2 5).boxValue ∧
       q.isLastStanding = true ∧ q.roundDealt = some wsLast.currentRound) ∧
     findBox (endOfferAndContinue wsLast 0 0).boxes 2 =
       some { mkBox 2 5 with
              isOpened := true,
              openedByPlayerId := some (mkContestant "B" 2 5).id }) :=
  ⟨⟨by decide, rfl, by decide⟩,
   lastStanding_spec wsLast 0 0 (mkContestant "B" 2 5) 2 (mkBox 2 5)
     (by decide) rfl (by decide)⟩

/-- C8: a firing offer timer outside the offer phase is a strict no-op; in
the offer phase it defaults every eligible non-responder to No Deal with a
single `timeoutCount` increment, leaves recorded responses and their
players untouched, and then continues offer resolution. -/
theorem offerTimeout_spec (s : GameState) (now : Nat) (rand : ℚ) :
    (s.phase ≠ Phase.offer → handleOfferTimeout s now rand = s) ∧
    (s.phase = Phase.offer →
      handleOfferTimeout s now rand = endOfferAndContinue (markOfferTimeouts s) now rand) ∧
    (∀ q b, lookupResp s.offerResponses q = some b →
      lookupResp (markOfferTimeouts s).offerResponses q = some b ∧
      playersWithId (markOfferTimeouts s) q = playersWithId s q) ∧
    (∀ q, q ∈ s.offerEligiblePlayerIds → lookupResp s.offerResponses q = none →
      lookupResp (markOfferTimeouts s).offerResponses q = some false ∧
      playersWithId (markOfferTimeouts s) q = (playersWithId s q).map bumpTimeout) := by
  refine ⟨?_, ?_, ?_, ?_⟩
  · intro h
    unfold handleOfferTimeout
    rw [if_pos h]
  · intro h
    unfold handleOfferTimeout
    rw [if_neg (not_ne_iff.mpr h)]
  · intro q b h
    exact markFoldl_responded s.offerEligiblePlayerIds s q b h
  · intro q hq h
    exact markFoldl_marked s.offerEligiblePlayerIds s q hq h

/-- Witness for C8: a no-op firing on the playing-phase fixture, and the
marking behaviour on `wsOffer` (A unmarked → marked, C's rejection kept). -/
theorem offerTimeout_spec_witness :
    (wsQuota.phase ≠ Phase.offer ∧ handleOfferTimeout wsQuota 0 0 = wsQuota) ∧
    (wsOffer.phase = Phase.offer ∧
     handleOfferTimeout wsOffer 0 0 = endOfferAndContinue (markOfferTimeouts wsOffer) 0 0) ∧
    (lookupResp wsOffer.offerResponses "C" = some false ∧
     lookupResp (markOfferTimeouts wsOffer).offerResponses "C" = some false ∧
     playersWithId (markOfferTimeouts wsOffer) "C" = playersWithId wsOffer "C") ∧
    ("A" ∈ wsOffer.offerEligiblePlayerIds ∧
     lookupResp wsOffer.offerResponses "A" = none ∧
     lookupResp (markOfferTimeouts wsOffer).offerResponses "A" = some false ∧
     playersWithId (markOfferTimeouts wsOffer) "A" =
       (playersWithId wsOffer "A").map bumpTimeout) :=
  ⟨⟨by decide, (offerTimeout_spec wsQuota 0 0).1 (by decide)⟩,
   ⟨rfl, (offerTimeout_spec wsOffer 0 0).2.1 rfl⟩,
   ⟨by decide, (offerTimeout_spec wsOffer 0 0).2.2.1 "C" false (by decide)⟩,
   ⟨by decide, by decide, (offerTimeout_spec wsOffer 0 0).2.2.2 "A" (by decide) (by decide)⟩⟩

/-- The ladder as a multiset. -/
def ladderMS : Multiset Money := (BOX_VALUES : Multiset Money)

/-- Multiset of all box values. -/
def boxVals (bs : List Box) : Multiset Money :=
  ((bs.map Box.value : List Money) : Multiset Money)

/-- Multiset of values of opened boxes. -/
def openedVals (bs : List Box) : Multiset Money :=
  (((bs.filter (fun b => b.isOpened)).map Box.value : List Money) : Multiset Money)

/-- The C1 partition invariant. -/
def StateInv (s : GameState) : Prop :=
  boxVals s.boxes = ladderMS ∧
  (↑s.remainingValues + ↑s.eliminatedValues : Multiset Money) = ladderMS ∧
  (↑s.eliminatedValues : Multiset Money) = openedVals s.boxes

theorem ladder_nodup : ladderMS.Nodup := by
  rw [ladderMS, Multiset.coe_nodup]
  simp only [BOX_VALUES, List.nodup_cons, List.mem_cons, List.not_mem_nil,
    List.mem_singleton]
  norm_num

theorem map_value_openBoxIn (bs : List Box) (n : Nat) (pid : String) :
    (openBoxIn bs n pid).map Box.value = bs.map Box.value := by
  induction bs with
  | nil => rfl
  | cons b rest ih =>
    unfold openBoxIn
    by_cases hb : b.number == n
    · rw [if_pos hb]
      rfl
    · rw [if_neg hb]
      simp only [List.map_cons, ih]

theorem boxVals_openBoxIn (bs : List Box) (n : Nat) (pid : String) :
    boxVals (openBoxIn bs n pid) = boxVals bs := by
  rw [boxVals, boxVals, map_value_openBoxIn]

theorem openBoxIn_decomp (bs : List Box) (n : Nat) (pid : String) (box : Box)
    (hfind : findBox bs n = some box) :
    ∃ l1 l2, bs = l1 ++ box :: l2 ∧
      openBoxIn bs n pid =
        l1 ++ { box with isOpened := true, openedByPlayerId := some pid } :: l2 := by
  induction bs with
  | nil => exact absurd hfind (by simp [findBox])
  | cons b rest ih =>
    by_cases hb : b.number == n
    · have hbox : b = box := by
        simp only [findBox, List.find?, hb] at hfind
        exact Option.some_injective _ hfind
      subst hbox
      refine ⟨[], rest, rfl, ?_⟩
      unfold openBoxIn
      rw [if_pos hb]
      rfl
    · have hfind2 : findBox rest n = some box := by
        simp only [findBox, List.find?] at hfind ⊢
        cases hbb : (b.number == n) with
        | true => exact absurd hbb (by simp_all)
        | false => rw [hbb] at hfind; exact hfind
      obtain ⟨l1, l2, heq, hopen⟩ := ih hfind2
      refine ⟨b :: l1, l2, by rw [heq]; rfl, ?_⟩
      unfold openBoxIn
      rw [if_neg hb, hopen]
      rfl

theorem openedVals_le_boxVals (bs : List Box) : openedVals bs ≤ boxVals bs := by
  rw [openedVals, boxVals, Multiset.coe_le]
  exact ((List.filter_sublist bs).map Box.value).subperm

theorem openedVals_append (l1 l2 : List Box) :
    openedVals (l1 ++ l2) = openedVals l1 + openedVals l2 := by
  rw [openedVals, openedVals, openedVals, List.filter_append, List.map_append,
    Multiset.coe_add]

theorem openedVals_cons_opened (b : Box) (l : List Box) (h : b.isOpened = true) :
    openedVals (b :: l) = b.value ::ₘ openedVals l := by
  rw [openedVals, openedVals, List.filter_cons, if_pos (by simp [h])]
  rfl

theorem openedVals_cons_unopened (b : Box) (l : List Box) (h : b.isOpened = false) :
    openedVals (b :: l) = openedVals l := by
  rw [openedVals, openedVals, List.filter_cons, if_neg (by simp [h])]

/-- The heart of C1: opening a found box and moving its value preserves all
three components of the partition invariant. -/
theorem openStep_inv (bs : List Box) (rem elim : List Money) (n : Nat)
    (pid : String) (box : Box)
    (hfind : findBox bs n = some box)
    (h1 : boxVals bs = ladderMS)
    (h2 : (↑rem + ↑elim : Multiset Money) = ladderMS)
    (h3 : (↑elim : Multiset Money) = openedVals bs) :
    boxVals (openBoxIn bs n pid) = ladderMS ∧
    (↑(moveValue box.value rem elim).1 + ↑(moveValue box.value rem elim).2 :
      Multiset Money) = ladderMS ∧
    (↑(moveValue box.value rem elim).2 : Multiset Money) =
      openedVals (openBoxIn bs n pid) := by
  obtain ⟨l1, l2, hsplit, hopen⟩ := openBoxIn_decomp bs n pid box hfind
  have hcount1 : Multiset.count box.value ladderMS = 1 := by
    have hin : box.value ∈ boxVals bs := by
      rw [hsplit, boxVals]
      simp
    rw [h1] at hin
    have hle := Multiset.nodup_iff_count_le_one.mp ladder_nodup box.value
    have hpos := Multiset.count_pos.mpr hin
    omega
  have hbox1 : boxVals (openBoxIn bs n pid) = ladderMS := by
    rw [boxVals_openBoxIn]
    exact h1
  have hov : openedVals (openBoxIn bs n pid) =
      openedVals l1 + (box.value ::ₘ openedVals l2) := by
    rw [hopen, openedVals_append, openedVals_cons_opened _ _ rfl]
  cases hbo : box.isOpened with
  | true =>
    have helim_in : box.value ∈ (↑elim : Multiset Money) := by
      rw [h3, hsplit, openedVals_append, openedVals_cons_opened box l2 hbo]
      simp
    have hnotrem : box.value ∉ rem := by
      intro hmem
      have hc1 := Multiset.count_pos.mpr (Multiset.mem_coe.mpr hmem)
      have hc2 := Multiset.count_pos.mpr helim_in
      have hsum := congrArg (Multiset.count box.value) h2
      rw [Multiset.count_add, hcount1] at hsum
      omega
    have hmv : moveValue box.value rem elim = (rem, elim) := by
      rw [moveValue, if_neg hnotrem]
    rw [hmv]
    refine ⟨hbox1, h2, ?_⟩
    rw [hov, h3, hsplit, openedVals_append, openedVals_cons_opened box l2 hbo]
  | false =>
    have hbv : boxVals bs = boxVals l1 + (box.value ::ₘ boxVals l2) := by
      rw [hsplit, boxVals, List.map_append, ← Multiset.coe_add]
      rfl
    have hcnt0 : Multiset.count box.value (boxVals l1 + boxVals l2) = 0 := by
      have hc := congrArg (Multiset.count box.value) hbv
      rw [h1, hcount1, Multiset.count_add, Multiset.count_cons_self] at hc
      rw [Multiset.count_add]
      omega
    have hnotelim : Multiset.count box.value (↑elim : Multiset Money) = 0 := by
      have heq3 : (↑elim : Multiset Money) = openedVals l1 + openedVals l2 := by
        rw [h3, hsplit, openedVals_append, openedVals_cons_unopened box l2 hbo]
      rw [heq3]
      have hle2 : openedVals l1 + openedVals l2 ≤ boxVals l1 + boxVals l2 :=
        add_le_add (openedVals_le_boxVals l1) (openedVals_le_boxVals l2)
      have hmono := Multiset.count_le_of_le box.value hle2
      omega
    have hrem : box.value ∈ rem := by
      have hsum := congrArg (Multiset.count box.value) h2
      rw [Multiset.count_add, hcount1, hnotelim] at hsum
      have : 0 < Multiset.count box.value (↑rem : Multiset Money) := by omega
      exact Multiset.mem_coe.mp (Multiset.count_pos.mp this)
    have hremM : box.value ∈ (↑rem : Multiset Money) := Multiset.mem_coe.mpr hrem
    have hmv : moveValue box.value rem elim =
        (rem.erase box.value, elim ++ [box.value]) := by
      rw [moveValue, if_pos hrem]
    rw [hmv]
    refine ⟨hbox1, ?_, ?_⟩
    · show (↑(rem.erase box.value) + ↑(elim ++ [box.value]) : Multiset Money) = ladderMS
      rw [← Multiset.coe_erase, ← Multiset.coe_add]
      rw [show ((↑elim + ↑[box.value] : Multiset Money)) = ↑[box.value] + ↑elim from
        add_comm _ _]
      rw [← add_assoc]
      rw [show ((↑rem : Multiset Money).erase box.value + ↑[box.value]) =
        ↑[box.value] + (↑rem : Multiset Money).erase box.value from add_comm _ _]
      rw [Multiset.coe_singleton, Multiset.singleton_add, Multiset.cons_erase hremM]
      exact h2
    · show (↑(elim ++ [box.value]) : Multiset Money) = openedVals (openBoxIn bs n pid)
      rw [← Multiset.coe_add, hov, h3, hsplit, openedVals_append,
        openedVals_cons_unopened box l2 hbo, Multiset.coe_singleton, add_assoc]
      rw [show ((openedVals l2) + ({box.value} : Multiset Money)) =
        {box.value} + openedVals l2 from add_comm _ _]
      rw [Multiset.singleton_add]


/-- Invariance under any transition that keeps boxes and both value lists. -/
theorem inv_of_fields (s t : GameState) (hb : t.boxes = s.boxes)
    (hr : t.remainingValues = s.remainingValues)
    (he : t.eliminatedValues = s.eliminatedValues) (h : StateInv s) :
    StateInv t := by
  unfold StateInv at h ⊢
  rw [hb, hr, he]
  exact h

/-- Invariance under an open-and-move step on a found box. -/
theorem inv_openStepState (s t : GameState) (n : Nat) (pid : String) (box : Box)
    (hfb : findBox s.boxes n = some box)
    (hb : t.boxes = openBoxIn s.boxes n pid)
    (hr : t.remainingValues = (moveValue box.value s.remainingValues s.eliminatedValues).1)
    (he : t.eliminatedValues = (moveValue box.value s.remainingValues s.eliminatedValues).2)
    (h : StateInv s) : StateInv t := by
  obtain ⟨h1, h2, h3⟩ := h
  have hstep := openStep_inv s.boxes s.remainingValues s.eliminatedValues n pid box hfb h1 h2 h3
  unfold StateInv
  rw [hb, hr, he]
  exact hstep

theorem inv_finishGame (s : GameState) (now : Nat) (h : StateInv s) :
    StateInv (finishGame s now) :=
  inv_of_fields s _ rfl rfl rfl h

theorem inv_revealBox (s : GameState) (pid : String) (bn : Option Nat)
    (h : StateInv s) : StateInv (revealBox s pid bn) := by
  unfold revealBox
  split
  · exact h
  next n =>
    split
    · exact h
    next xb box hfb =>
      exact inv_openStepState s _ n pid box hfb rfl rfl rfl h

theorem inv_openPersonalBox (s : GameState) (pid : String) (bn : Option Nat)
    (h : StateInv s) : StateInv (openPersonalBox s pid bn) := by
  unfold openPersonalBox
  split
  · exact h
  next n =>
    split
    · exact h
    next xb box hfb =>
      split
      · exact h
      · exact inv_openStepState s _ n pid box hfb rfl rfl rfl h

theorem inv_finishLastPlayer (s : GameState) (p : Player) (now : Nat)
    (h : StateInv s) : StateInv (finishLastPlayer s p now) := by
  unfold finishLastPlayer
  exact inv_finishGame _ now (inv_revealBox _ p.id p.boxNumber
    (inv_of_fields s _ rfl rfl rfl h))

theorem inv_triggerBankerOffer (s : GameState) (now : Nat) (rand : ℚ)
    (h : StateInv s) : StateInv (triggerBankerOffer s now rand) := by
  unfold triggerBankerOffer
  split
  · exact inv_finishLastPlayer s _ now h
  · split
    · exact inv_finishGame s now h
    · exact inv_of_fields s _ rfl rfl rfl h

theorem inv_setCurrentTurn (s : GameState) (now : Nat) (rand : ℚ)
    (h : StateInv s) : StateInv (setCurrentTurn s now rand) := by
  unfold setCurrentTurn
  split
  · exact h
  · split
    · exact inv_triggerBankerOffer s now rand h
    · split
      · exact h
      · split
        · exact h
        · exact inv_of_fields s _ rfl rfl rfl h

theorem inv_startNewRound (s : GameState) (now : Nat) (rand : ℚ)
    (h : StateInv s) : StateInv (startNewRound s now rand) := by
  unfold startNewRound
  split
  · exact inv_finishLastPlayer s _ now h
  · exact inv_setCurrentTurn _ now rand (inv_of_fields s _ rfl rfl rfl h)

theorem inv_endOfferAndContinue (s : GameState) (now : Nat) (rand : ℚ)
    (h : StateInv s) : StateInv (endOfferAndContinue s now rand) := by
  unfold endOfferAndContinue
  split
  · exact inv_finishGame s now h
  · split
    · exact inv_finishLastPlayer s _ now h
    · exact inv_startNewRound s now rand h

theorem inv_dealSettle (s : GameState) (pid : String) (player : Player)
    (h : StateInv s) : StateInv (dealSettle s pid player) := by
  unfold dealSettle
  have h2 : StateInv (openPersonalBox
      { s with players := updatePlayerIn s.players pid (fun q =>
          { q with hasDealt := true, dealAmount := s.currentOffer,
                   roundDealt := some s.currentRound, isLastStanding := false,
                   points := calculatePoints ⟨s.currentOffer.getD 0,
                     player.boxValue.getD 0, s.currentRound, false, false,
                     player.timeoutCount⟩ }) } pid player.boxNumber) :=
    inv_openPersonalBox _ pid player.boxNumber (inv_of_fields s _ rfl rfl rfl h)
  dsimp only
  split
  · exact inv_of_fields _ _ rfl rfl rfl h2
  · exact h2

theorem inv_dealResponseHandler (s : GameState) (pid : String) (accepted : Bool)
    (now : Nat) (rand : ℚ) (h : StateInv s) :
    StateInv (dealResponseHandler s pid accepted now rand) := by
  unfold dealResponseHandler
  split
  · exact h
  · split
    · exact h
    next xp player heq =>
      split
      · exact h
      · split
        · exact h
        · split
          · exact h
          · split
            · exact h
            · dsimp only
              split
              · have hY : StateInv (dealSettle { s with offerResponses :=
                    s.offerResponses ++ [(pid, accepted)] } pid player) :=
                  inv_dealSettle _ pid player (inv_of_fields s _ rfl rfl rfl h)
                split
                · exact inv_endOfferAndContinue _ now rand hY
                · exact hY
              · have hY : StateInv { s with offerResponses :=
                    s.offerResponses ++ [(pid, accepted)] } :=
                  inv_of_fields s _ rfl rfl rfl h
                split
                · exact inv_endOfferAndContinue _ now rand hY
                · exact hY

theorem inv_openBoxHandler (s : GameState) (pid : String) (n : Nat)
    (now : Nat) (rand : ℚ) (h : StateInv s) :
    StateInv (openBoxHandler s pid n now rand) := by
  unfold openBoxHandler
  split
  · exact h
  · split
    · exact h
    · split
      · exact h
      next xp player heq =>
        split
        · exact h
        · split
          · exact h
          · split
            · exact h
            · split
              · exact h
              next xb box hfb =>
                split
                · exact h
                · split
                  · exact h
                  · dsimp only
                    have hs1 : StateInv { s with
                        boxes := openBoxIn s.boxes n pid,
                        remainingValues := (moveValue box.value s.remainingValues
                          s.eliminatedValues).1,
                        eliminatedValues := (moveValue box.value s.remainingValues
                          s.eliminatedValues).2,
                        boxesOpenedThisRound := s.boxesOpenedThisRound ++ [n] } :=
                      inv_openStepState s _ n pid box hfb rfl rfl rfl h
                    split
                    · exact inv_of_fields _ _ rfl rfl rfl hs1
                    · split
                      · exact hs1
                      · exact inv_setCurrentTurn _ now rand
                          (inv_of_fields _ _ rfl rfl rfl hs1)

/-- C1: the partition invariant — box values form exactly the ladder,
`remainingValues ⊎ eliminatedValues` equals the ladder, and
`eliminatedValues` is exactly the multiset of opened boxes' values — is
preserved by the `open-box` handler, the `deal-response` handler
(including deal acceptance and its offer-resolution continuation), and the
last-standing auto-reveal. -/
theorem partition_invariant_preserved (s : GameState) (pid : String) (n : Nat)
    (accepted : Bool) (now : Nat) (rand : ℚ) (p : Player) (h : StateInv s) :
    StateInv (openBoxHandler s pid n now rand) ∧
    StateInv (dealResponseHandler s pid accepted now rand) ∧
    StateInv (finishLastPlayer s p now) :=
  ⟨inv_openBoxHandler s pid n now rand h,
   inv_dealResponseHandler s pid accepted now rand h,
   inv_finishLastPlayer s p now h⟩

/-- A freshly started two-player game over the full 20-value ladder. -/
def wsInit : GameState :=
  { phase := Phase.playing, hostId := "A",
    players := [mkContestant "A" 1 (1/100), mkContestant "B" 2 1],
    boxes := [mkBox 1 (1/100), mkBox 2 1, mkBox 3 5, mkBox 4 10, mkBox 5 50,
              mkBox 6 100, mkBox 7 250, mkBox 8 500, mkBox 9 750, mkBox 10 1000,
              mkBox 11 3000, mkBox 12 5000, mkBox 13 10000, mkBox 14 15000,
              mkBox 15 20000, mkBox 16 35000, mkBox 17 50000, mkBox 18 75000,
              mkBox 19 100000, mkBox 20 250000],
    currentRound := 1, boxesOpenedThisRound := [],
    remainingValues := BOX_VALUES, eliminatedValues := [],
    currentOffer := none, offerExpiresAt := none,
    offerEligiblePlayerIds := [], offerResponses := [],
    turnOrder := ["A", "B"], currentTurnIndex := 0,
    currentTurnPlayerId := some "A", turnExpiresAt := some 20000,
    startedAt := some 0, finishedAt := none }

/-- Witness for C1 on the freshly started game `wsInit`. -/
theorem partition_invariant_preserved_witness :
    StateInv wsInit ∧
    (StateInv (openBoxHandler wsInit "A" 3 0 0) ∧
     StateInv (dealResponseHandler wsInit "A" true 0 0) ∧
     StateInv (finishLastPlayer wsInit (mkContestant "B" 2 1) 0)) :=
  ⟨⟨rfl, by simp [wsInit, ladderMS], rfl⟩,
   partition_invariant_preserved wsInit "A" 3 true 0 0 (mkContestant "B" 2 1)
     ⟨rfl, by simp [wsInit, ladderMS], rfl⟩⟩

end DoND
